import Mathlib

/-!
Verification of the hybrid GraphRAG retrieval service
(`backend/app/services/graphrag_retrieval.py`) against its specification.

The Python code is shallowly embedded: pure helper methods become Lean
functions, the external collaborators (embedding backend, Neo4j store,
`json` stdlib, monotonic clock) become explicit oracle parameters, and the
mutable LRU/TTL cache becomes explicit state passing over an ordered
association list (mirroring `collections.OrderedDict` insertion order,
head = least recently used).

Numbers: Python `float` timestamps, scores and embedding components are
modelled as `ℚ`; Python `int` as `Int`; `len`/slicing on `str` operate on
code points, modelled by `List Char` length/take.
-/

namespace GraphRAG

/-- JSON-serializable Python values as produced by `Neo4jClient._jsonify`
and `json.loads`: strings, ints, floats (as `ℚ`), booleans, `None`,
lists (covering Python `list` and `tuple`) and string-keyed dicts
(as insertion-ordered association lists). -/
inductive PyVal where
  | vstr (s : String)
  | vint (n : Int)
  | vrat (q : ℚ)
  | vbool (b : Bool)
  | vnone
  | vlist (items : List PyVal)
  | vdict (entries : List (String × PyVal))

/-- Python truthiness (`bool(v)`) on the embedded values. -/
def truthy : PyVal → Bool
  | .vstr s => !s.isEmpty
  | .vint n => n != 0
  | .vrat q => q != 0
  | .vbool b => b
  | .vnone => false
  | .vlist items => !items.isEmpty
  | .vdict entries => !entries.isEmpty

/-- Python `str(v)` restricted to the value shapes the service feeds it.
Identifier properties are strings or ints in practice; compound values get
a placeholder rendering (the claims under verification never depend on it). -/
def pyStr : PyVal → String
  | .vstr s => s
  | .vint n => toString n
  | .vrat q => toString q
  | .vbool b => if b then "True" else "False"
  | .vnone => "None"
  | .vlist _ => "<list>"
  | .vdict _ => "<dict>"

/-- `dict.get(key)` on an embedded dict value: first entry with the key
(entries built by the embedding have unique keys, matching Python dicts);
`none` both when the key is absent and when the value is not a dict
(the service only calls `.get` on dict-shaped `_jsonify` output). -/
def pvGet (v : PyVal) (key : String) : Option PyVal :=
  match v with
  | .vdict entries => (entries.find? fun e => e.1 == key).map (·.2)
  | _ => none

/-- `dict.get(key)` on a raw entry list. -/
def entriesGet (entries : List (String × PyVal)) (key : String) : Option PyVal :=
  (entries.find? fun e => e.1 == key).map (·.2)

/-! ### Python string whitespace helpers

`str.strip`/`lstrip`/`rstrip` strip whitespace; the model covers the ASCII
whitespace characters (space, tab, newline, carriage return, vertical tab,
form feed), which is what the service's query strings and chunk contents
contain. -/

/-- ASCII whitespace recognised by Python `str.strip` and friends. -/
def pyIsSpace (c : Char) : Bool :=
  c == ' ' || c == '\t' || c == '\n' || c == '\r' || c == '\x0b' || c == '\x0c'

/-- Python `s.lstrip()`. -/
def pyLstrip (s : String) : String :=
  String.mk (s.data.dropWhile pyIsSpace)

/-- Python `s.rstrip()`. -/
def pyRstrip (s : String) : String :=
  String.mk ((s.data.reverse.dropWhile pyIsSpace).reverse)

/-- Python `s.strip()`. -/
def pyStrip (s : String) : String :=
  pyRstrip (pyLstrip s)

/-- Python slicing `s[:n]` (by code points). -/
def strTake (s : String) (n : Nat) : String :=
  String.mk (s.data.take n)

/-- Python `s.lower()` (ASCII case folding, which covers the service's
metadata keys). -/
def pyLower (s : String) : String :=
  String.mk (s.data.map Char.toLower)

/-- Python `s.endswith(suffix)`. -/
def strEndsWith (s suffix : String) : Bool :=
  suffix.data.isSuffixOf s.data

/-- Python `len(s)` (code points). -/
def pyLen (s : String) : Nat := s.data.length

/-! ### `_truncate_content`

`GraphRAGRetrievalService._truncate_content`: content within the configured
budget (or with the budget disabled) passes through; over-budget content
that parses as a JSON document starting with `{` or `[` passes through;
otherwise the content is cut to the budget, with a `"..."` marker when the
budget exceeds 3. `json.loads` success is an oracle parameter `jsonValid`
(it is Python stdlib, not repository code). -/

/-- The skip condition of `_truncate_content`: first non-whitespace
character is `{` or `[` and `json.loads` succeeds. Since a successful
parse whose first significant character is `{` (resp. `[`) is exactly a
JSON object (resp. array) document, this Bool is the spec's
"syntactically valid JSON document (object or array)". -/
def isJsonDocument (jsonValid : String → Bool) (content : String) : Bool :=
  (let firstChar := (pyLstrip content).data.take 1
   firstChar == ['\x7b'] || firstChar == ['\x5b']) && jsonValid content

/-- `GraphRAGRetrievalService._truncate_content`. `truncateChars` is the
field `chunk_content_truncate_chars`, already clamped to `≥ 0` by the
constructor, hence a `Nat`. -/
def truncateContent (truncateChars : Nat) (jsonValid : String → Bool)
    (content : String) : String :=
  if pyLen content = 0 then content
  else if truncateChars = 0 then content
  else if pyLen content ≤ truncateChars then content
  else if isJsonDocument jsonValid content then content
  else if truncateChars ≤ 3 then strTake content truncateChars
  else pyRstrip (strTake content (truncateChars - 3)) ++ "..."

/-! ### Data model -/

/-- `RetrievalChunk`. Scores and per-chunk metadata carry the shapes the
service actually constructs: metadata is the dict parsed from
`metadata_json` (as an entry list), `source_type`/`source_description`
are raw property values. -/
structure RetrievalChunk where
  chunk_id : String
  score : ℚ
  content : String
  metadata : List (String × PyVal)
  source_id : Option String := none
  source_type : Option PyVal := none
  source_description : Option PyVal := none

/-- `StructuredRelationship`. -/
structure StructuredRelationship where
  type : String
  direction : String
  target : PyVal
  properties : PyVal

/-- `StructuredEntityContext`. -/
structure StructuredEntityContext where
  node : PyVal
  relationships : List StructuredRelationship := []

/-- `HybridRetrievalResult`. -/
structure HybridRetrievalResult where
  query : String
  chunks : List RetrievalChunk
  structured_entities : List StructuredEntityContext

/-! ### `_yield_metadata_ids` / `_collect_candidate_entity_ids`

The `EntityLinker`: scans a chunk's metadata dict for identifier-shaped
keys and collects candidate ids across chunks first-occurrence-first. -/

/-- The regex `(^|_)(id|ids)$` (case-insensitive, applied to the already
lowercased key): the key is `id`/`ids` or ends in `_id`/`_ids`. -/
def idKeyPatternMatch (k : String) : Bool :=
  k == "id" || k == "ids" || strEndsWith k "_id" || strEndsWith k "_ids"

/-- Whether `v` is a Python `str`. -/
def PyVal.isStr : PyVal → Bool
  | .vstr _ => true
  | _ => false

/-- Whether `v` is a Python `list`/`tuple`. -/
def PyVal.isList : PyVal → Bool
  | .vlist _ => true
  | _ => false

/-- The string payload of a list element, skipping non-strings
(the inner loop of `_yield_metadata_ids`). -/
def stringItem : PyVal → Option String
  | .vstr s => some s
  | _ => none

/-- `GraphRAGRetrievalService._yield_metadata_ids`, flattened to the list
of ids the generator yields, in yield order. `idKeys` is the
`metadata_id_keys` tuple. -/
def yieldMetadataIds (idKeys : List String) (metadata : List (String × PyVal)) :
    List String :=
  metadata.flatMap fun e =>
    let keyLower := pyLower e.1
    match e.2 with
    | .vstr s =>
        if idKeys.contains keyLower || idKeyPatternMatch keyLower then [s] else []
    | .vlist items =>
        if strEndsWith keyLower "_ids" then items.filterMap stringItem else []
    | _ => []

/-- One step of the `seen`/`ordered` accumulation in
`_collect_candidate_entity_ids` (the `seen` set is modelled as a list,
membership being all the code uses). -/
def collectStep (st : List String × List String) (c : String) :
    List String × List String :=
  if c ∈ st.1 then st else (c :: st.1, st.2 ++ [c])

/-- `GraphRAGRetrievalService._collect_candidate_entity_ids`. -/
def collectCandidateEntityIds (idKeys : List String)
    (chunks : List RetrievalChunk) : List String :=
  ((chunks.flatMap fun ch => yieldMetadataIds idKeys ch.metadata).foldl
    collectStep ([], [])).2

/-- Specification-side rendering of "the first occurrence of an id fixes
its position and every later duplicate is dropped", excluding ids already
in `seen`. -/
def dedupFirstAux (seen : List String) : List String → List String
  | [] => []
  | x :: xs =>
      if x ∈ seen then dedupFirstAux seen xs
      else x :: dedupFirstAux (x :: seen) xs

/-- Keep-first deduplication. -/
def dedupFirst (l : List String) : List String := dedupFirstAux [] l

/-! ### `_vector_search` and chunk construction

`execute_query` rows are already `_jsonify`ed by `Neo4jClient`; on plain
JSON values `_jsonify` is the identity, so the service's re-`_jsonify` of
row fields is modelled as the identity. A row of the similarity query
exposes `node`, `score` and `source`; scores are floats (`ℚ`), row fields
may be missing (`none`, Python `record.get` returning `None`). -/

/-- One row of the vector-similarity query result. -/
structure VectorRecord where
  node : Option PyVal := none
  score : ℚ := 0
  source : Option PyVal := none

/-- The stdlib behaviour the service delegates to `json`:
`jsonValid s` is "`json.loads(s)` succeeds", `jsonParseDict s` is the
parsed object when `json.loads(s)` succeeds with a JSON object
(metadata documents are objects; `none` covers a raised
`JSONDecodeError`). -/
structure JsonOracle where
  jsonValid : String → Bool
  jsonParseDict : String → Option (List (String × PyVal))

/-- `GraphRAGRetrievalService._parse_metadata`. -/
def parseMetadata (oracle : JsonOracle) (metadataJson : Option PyVal) :
    List (String × PyVal) :=
  match metadataJson with
  | none => []
  | some v =>
      if !truthy v then []
      else
        match v with
        | .vdict entries => entries
        | .vstr s => (oracle.jsonParseDict s).getD []
        | _ => []

/-- `GraphRAGRetrievalService._extract_source_id`:
`str(source_dict.get("properties", {}).get("id"))` when the source object
is truthy (so a missing id yields the string `"None"`). -/
def extractSourceId (source : Option PyVal) : Option String :=
  match source with
  | none => none
  | some v =>
      if !truthy v then none
      else some (pyStr ((pvGet ((pvGet v "properties").getD (.vdict []))
        "id").getD .vnone))

/-- `GraphRAGRetrievalService._extract_source_type`. -/
def extractSourceType (source : Option PyVal) : Option PyVal :=
  match source with
  | none => none
  | some v =>
      if !truthy v then none
      else pvGet ((pvGet v "properties").getD (.vdict [])) "type"

/-- `GraphRAGRetrievalService._extract_source_description`. -/
def extractSourceDescription (source : Option PyVal) : Option PyVal :=
  match source with
  | none => none
  | some v =>
      if !truthy v then none
      else pvGet ((pvGet v "properties").getD (.vdict [])) "description"

/-- The per-row body of the `_vector_search` result loop: rows with a
missing or falsy `node` are skipped, others become a `RetrievalChunk`. -/
def buildChunk (truncateChars : Nat) (oracle : JsonOracle)
    (raw : VectorRecord) : Option RetrievalChunk :=
  match raw.node with
  | none => none
  | some nodeVal =>
      if !truthy nodeVal then none
      else
        let nodeProps := (pvGet nodeVal "properties").getD (.vdict [])
        let metadata := parseMetadata oracle (pvGet nodeProps "metadata_json")
        let content := truncateContent truncateChars oracle.jsonValid
          (pyStr ((pvGet nodeProps "content").getD (.vstr "")))
        some
          { chunk_id := pyStr ((pvGet nodeProps "chunk_id").getD .vnone)
            score := raw.score
            content := content
            metadata := metadata
            source_id := extractSourceId raw.source
            source_type := extractSourceType raw.source
            source_description := extractSourceDescription raw.source }

/-- The full result-conversion loop of `_vector_search`. -/
def buildChunks (truncateChars : Nat) (oracle : JsonOracle)
    (records : List VectorRecord) : List RetrievalChunk :=
  records.filterMap (buildChunk truncateChars oracle)

/-! ### `_load_structured_context`

The loader issues a node-by-id query and (when any node matched) an
outgoing-relationship query. Store responses are explicit inputs; the
queries the loader issues are recorded as `GraphCall`s, carrying the
parameters the source passes (`$limit` in particular). -/

/-- One `Neo4jClient.execute_query` invocation, tagged by which of the
three Cypher statements of the service it runs, with the numeric/id
parameters it passes. -/
inductive GraphCall where
  | vectorQuery (indexName : String) (limit : Int)
  | nodesQuery (entityIds : List String)
  | relsQuery (entityIds : List String) (limit : Int)
deriving DecidableEq

/-- A row of the node-by-id query (`RETURN n`). -/
structure NodeRecord where
  n : Option PyVal := none

/-- A row of the relationship query
(`RETURN n.id AS source_id, r, m`). -/
structure RelRecord where
  source_id : Option PyVal := none
  r : Option PyVal := none
  m : Option PyVal := none

/-- The id the node-lookup loop extracts from one row, skipping rows with
a missing/falsy node dict or a falsy `id` property. -/
def nodeRecordId (record : NodeRecord) : Option String :=
  match record.n with
  | none => none
  | some nodeDict =>
      if !truthy nodeDict then none
      else
        let nodeProps := (pvGet nodeDict "properties").getD (.vdict [])
        match pvGet nodeProps "id" with
        | none => none
        | some idVal => if !truthy idVal then none else some (pyStr idVal)

/-- Python dict assignment `d[k] = v`: replaces in place, keeping the
position of the first insertion, else appends. -/
def assocSet (entries : List (String × StructuredEntityContext)) (key : String)
    (val : StructuredEntityContext) : List (String × StructuredEntityContext) :=
  match entries with
  | [] => [(key, val)]
  | e :: rest =>
      if e.1 == key then (key, val) :: rest else e :: assocSet rest key val

/-- Dict lookup on the node-lookup table. -/
def assocGet (entries : List (String × StructuredEntityContext)) (key : String) :
    Option StructuredEntityContext :=
  (entries.find? fun e => e.1 == key).map (·.2)

/-- One iteration of the node-lookup construction loop. -/
def nodeLookupStep (lookup : List (String × StructuredEntityContext))
    (record : NodeRecord) : List (String × StructuredEntityContext) :=
  match record.n, nodeRecordId record with
  | some nodeDict, some nodeId => assocSet lookup nodeId { node := nodeDict }
  | _, _ => lookup

/-- The node-lookup construction loop of `_load_structured_context`. -/
def buildNodeLookup (nodeRecords : List NodeRecord) :
    List (String × StructuredEntityContext) :=
  nodeRecords.foldl nodeLookupStep []

/-- The relationship a rel-query row contributes, or `none` when the row
is skipped (missing/falsy `r` or `m`; absent `type` degrades to
`"UNKNOWN"`). -/
def relOfRecord (record : RelRecord) : Option StructuredRelationship :=
  match record.r, record.m with
  | some relDict, some targetDict =>
      if !truthy relDict || !truthy targetDict then none
      else
        let relType :=
          match pvGet relDict "type" with
          | some t => if truthy t then t else
              (pvGet ((pvGet relDict "properties").getD (.vdict []))
                "type").getD .vnone
          | none =>
              (pvGet ((pvGet relDict "properties").getD (.vdict []))
                "type").getD .vnone
        let relTypeFinal := if truthy relType then relType else .vstr "UNKNOWN"
        some
          { type := pyStr relTypeFinal
            direction := "OUT"
            target := targetDict
            properties := (pvGet relDict "properties").getD (.vdict []) }
  | _, _ => none

/-- One iteration of the relationship-attachment loop: appends the row's
relationship to the context stored under `str(source_id)`, skipping rows
whose source id is absent or unknown. -/
def attachStep (lk : List (String × StructuredEntityContext))
    (record : RelRecord) : List (String × StructuredEntityContext) :=
  match record.source_id with
  | none => lk
  | some sid =>
      match assocGet lk (pyStr sid) with
      | none => lk
      | some ctx =>
          match relOfRecord record with
          | none => lk
          | some rel =>
              assocSet lk (pyStr sid)
                { ctx with relationships := ctx.relationships ++ [rel] }

/-- The relationship-attachment loop of `_load_structured_context`. -/
def attachRels (lookup : List (String × StructuredEntityContext))
    (relRecords : List RelRecord) : List (String × StructuredEntityContext) :=
  relRecords.foldl attachStep lookup

/-- `GraphRAGRetrievalService._load_structured_context`, with the store's
responses to the two queries as inputs. Returns the ordered contexts and
the `execute_query` calls issued. -/
def loadStructuredContext (entityIds : List String) (structuredLimit : Int)
    (nodeRecords : List NodeRecord) (relRecords : List RelRecord) :
    List StructuredEntityContext × List GraphCall :=
  let lookup := buildNodeLookup nodeRecords
  if lookup.isEmpty then ([], [.nodesQuery entityIds])
  else
    let keys := lookup.map (·.1)
    let lookupFinal := attachRels lookup relRecords
    (entityIds.filterMap (assocGet lookupFinal),
      [.nodesQuery entityIds, .relsQuery keys (max 0 structuredLimit)])

/-! ### The TTL/LRU cache

`self._cache` is an `OrderedDict` mapping the trimmed query to
`(monotonic timestamp, deep-copied result)`. Modelled as an association
list in recency order: head = least recently used, tail = most recently
used. Deep copies are the identity on pure values; the aliasing content
of `copy.deepcopy` is outside this embedding. -/

/-- One cache slot: key, insertion timestamp, stored result. -/
abbrev Cache := List (String × ℚ × HybridRetrievalResult)

/-- Dict lookup in the cache. -/
def cacheLookup (cache : Cache) (key : String) :
    Option (ℚ × HybridRetrievalResult) :=
  (List.find? (fun e => e.1 == key) cache).map (·.2)

/-- `OrderedDict.pop(key, None)`. -/
def cacheErase (cache : Cache) (key : String) : Cache :=
  List.filter (fun e => !(e.1 == key)) cache

/-- `OrderedDict.move_to_end(key)`. -/
def cacheMoveToEnd (cache : Cache) (key : String) : Cache :=
  match List.find? (fun e => e.1 == key) cache with
  | none => cache
  | some e => cacheErase cache key ++ [e]

/-- The `while len(self._cache) > self.cache_max_entries:
self._cache.popitem(last=False)` eviction loop. -/
def evictOldest (maxEntries : Nat) : Cache → Cache
  | [] => []
  | e :: rest =>
      if maxEntries < (e :: rest : List _).length then evictOldest maxEntries rest
      else e :: rest

/-- The constructor clamp `max(0, int(cache_max_entries or 0))`. -/
def clampEntries (n : Int) : Nat := (max 0 n).toNat

/-- The constructor clamp `max(0.0, float(cache_ttl_seconds or 0.0))`. -/
def clampTtl (q : ℚ) : ℚ := max 0 q

/-- `GraphRAGRetrievalService._get_cached_result`. `now` is the reading
of `time.monotonic()` at the call; returns the hit (if any) and the cache
afterwards. `maxEntries` and `ttl` are the constructor-clamped fields. -/
def getCachedResult (maxEntries : Nat) (ttl : ℚ) (now : ℚ) (cache : Cache)
    (query : String) : Option HybridRetrievalResult × Cache :=
  if maxEntries = 0 then (none, cache)
  else
    match cacheLookup cache query with
    | none => (none, cache)
    | some (timestamp, result) =>
        if 0 < ttl ∧ ttl < now - timestamp then
          (none, cacheErase cache query)
        else
          (some result, cacheMoveToEnd cache query)

/-- `GraphRAGRetrievalService._set_cached_result`. -/
def setCachedResult (maxEntries : Nat) (now : ℚ) (cache : Cache)
    (query : String) (result : HybridRetrievalResult) : Cache :=
  if maxEntries = 0 then cache
  else
    evictOldest maxEntries (cacheErase cache query ++ [(query, now, result)])

/-! ### `retrieve`

The orchestrator, with the collaborators as explicit inputs: the embedding
backend response, the store's response to each of the three queries, the
two `time.monotonic()` readings, and the incoming cache state. The outcome
records the returned value (or raised error), the cache afterwards, the
texts batched into `EmbeddingClient.embed_texts` (one list per call) and
the `Neo4jClient.execute_query` calls in order. -/

/-- The errors `retrieve` can raise: `GraphRAGRetrievalError` with its
distinct messages, plus the uncaught store exception escaping
`_load_structured_context`. -/
inductive RetrievalError where
  | emptyQuery
  | embedFailed
  | noVectors
  | emptyVector
  | vectorSearchFailed
  | structuredLookupFailed

/-- Constructor-clamped configuration of `GraphRAGRetrievalService`. -/
structure ServiceConfig where
  chunkIndexName : String
  metadataIdKeys : List String
  cacheMaxEntries : Nat
  cacheTtlSeconds : ℚ
  chunkContentTruncateChars : Nat

/-- The store's responses to the three queries of one retrieval
(`Except.error` = the driver raised). -/
structure StoreResponses where
  vector : Except Unit (List VectorRecord)
  nodes : Except Unit (List NodeRecord)
  rels : Except Unit (List RelRecord)

/-- What one `retrieve` call did. -/
structure RetrieveOutcome where
  result : Except RetrievalError HybridRetrievalResult
  cache : Cache
  embedBatches : List (List String)
  graphCalls : List GraphCall

/-- `GraphRAGRetrievalService._embed_query`: one `embed_texts` call with a
single-element batch; empty response or empty first vector raise. -/
def embedQuery (embedResponse : Except Unit (List (List ℚ))) :
    Except RetrievalError (List ℚ) :=
  match embedResponse with
  | .error _ => .error .embedFailed
  | .ok [] => .error .noVectors
  | .ok (v :: _) => if v.isEmpty then .error .emptyVector else .ok v

/-- The structured-context phase of a cache miss: everything of `retrieve`
after the vector search succeeded with `records`, for candidate list
`orderedEntityIds` (nonempty). -/
def retrieveStructured (store : StoreResponses)
    (structuredLimit : Int) (orderedEntityIds : List String) :
    Except RetrievalError (List StructuredEntityContext) × List GraphCall :=
  match store.nodes with
  | .error _ => (.error .structuredLookupFailed, [.nodesQuery orderedEntityIds])
  | .ok nodeRecords =>
      let lookup := buildNodeLookup nodeRecords
      if lookup.isEmpty then (.ok [], [.nodesQuery orderedEntityIds])
      else
        match store.rels with
        | .error _ =>
            (.error .structuredLookupFailed,
              [.nodesQuery orderedEntityIds,
                .relsQuery (lookup.map (·.1)) (max 0 structuredLimit)])
        | .ok relRecords =>
            let loaded := loadStructuredContext orderedEntityIds
              structuredLimit nodeRecords relRecords
            (.ok loaded.1, loaded.2)

/-- The miss path of `GraphRAGRetrievalService.retrieve`: embed, vector
search, candidate collection, structured load, assembly, cache fill.
`canonical` is the already-trimmed query, `cacheAfterGet` the cache state
the preceding (missing) cache check left behind. -/
def retrieveMiss (cfg : ServiceConfig) (oracle : JsonOracle)
    (embedResponse : Except Unit (List (List ℚ))) (store : StoreResponses)
    (tSet : ℚ) (cacheAfterGet : Cache) (canonical : String)
    (limit structuredLimit : Int) : RetrieveOutcome :=
  match embedQuery embedResponse with
  | .error e => ⟨.error e, cacheAfterGet, [[canonical]], []⟩
  | .ok _ =>
      let vectorCall := GraphCall.vectorQuery cfg.chunkIndexName (max 1 limit)
      match store.vector with
      | .error _ =>
          ⟨.error .vectorSearchFailed, cacheAfterGet, [[canonical]],
            [vectorCall]⟩
      | .ok records =>
          let chunkHits := buildChunks cfg.chunkContentTruncateChars oracle
            records
          let orderedEntityIds := collectCandidateEntityIds cfg.metadataIdKeys
            chunkHits
          if orderedEntityIds.isEmpty then
            let result : HybridRetrievalResult := ⟨canonical, chunkHits, []⟩
            ⟨.ok result,
              setCachedResult cfg.cacheMaxEntries tSet cacheAfterGet canonical
                result,
              [[canonical]], [vectorCall]⟩
          else
            match retrieveStructured store structuredLimit
              orderedEntityIds with
            | (.error e, structuredCalls) =>
                ⟨.error e, cacheAfterGet, [[canonical]],
                  vectorCall :: structuredCalls⟩
            | (.ok structuredContext, structuredCalls) =>
                let result : HybridRetrievalResult :=
                  ⟨canonical, chunkHits, structuredContext⟩
                ⟨.ok result,
                  setCachedResult cfg.cacheMaxEntries tSet cacheAfterGet
                    canonical result,
                  [[canonical]], vectorCall :: structuredCalls⟩

/-- `GraphRAGRetrievalService.retrieve`. -/
def retrieve (cfg : ServiceConfig) (oracle : JsonOracle)
    (embedResponse : Except Unit (List (List ℚ))) (store : StoreResponses)
    (tGet tSet : ℚ) (cache : Cache) (query : String)
    (limit structuredLimit : Int) : RetrieveOutcome :=
  let canonical := pyStrip query
  if pyLen canonical = 0 then
    ⟨.error .emptyQuery, cache, [], []⟩
  else
    match getCachedResult cfg.cacheMaxEntries cfg.cacheTtlSeconds tGet cache
      canonical with
    | (some hit, cacheAfterGet) => ⟨.ok hit, cacheAfterGet, [], []⟩
    | (none, cacheAfterGet) =>
        retrieveMiss cfg oracle embedResponse store tSet cacheAfterGet
          canonical limit structuredLimit

/-! ### Observation helpers and concrete fixtures -/

/-- Whether a graph call is the similarity query. -/
def GraphCall.isVector : GraphCall → Bool
  | .vectorQuery _ _ => true
  | _ => false

/-- Whether a graph call belongs to the structured-context load. -/
def GraphCall.isStructured : GraphCall → Bool
  | .nodesQuery _ => true
  | .relsQuery _ _ => true
  | _ => false

/-- The identity the service reads off a context's node dict
(`str(node_props.get("id"))`), the key under which
`_load_structured_context` indexes it. -/
def contextNodeId (ctx : StructuredEntityContext) : String :=
  pyStr ((pvGet ((pvGet ctx.node "properties").getD (.vdict [])) "id").getD
    .vnone)

/-- The ids the node-lookup loop extracts from the node-query response,
in row order. -/
def foundNodeIds (nodeRecords : List NodeRecord) : List String :=
  nodeRecords.filterMap nodeRecordId

/-- The lookup key (`str(source_id)`) a relationship row resolves to. -/
def relSourceKey (record : RelRecord) : Option String :=
  record.source_id.map pyStr

/-- Fixture: a `json` oracle under which nothing parses. -/
def fixtureOracle : JsonOracle := ⟨fun _ => false, fun _ => none⟩

/-- Fixture: default id keys, caching disabled, truncation disabled. -/
def fixtureCfg : ServiceConfig :=
  ⟨"chunks",
    ["id", "formulation_id", "ingredient_id", "source_id", "entity_id"],
    0, 0, 0⟩

/-- Fixture: one similarity hit whose metadata names entity `e1`. -/
def fixtureChunkNode : PyVal :=
  .vdict [("properties",
    .vdict [("chunk_id", .vstr "c1"), ("content", .vstr "hello"),
      ("metadata_json", .vdict [("id", .vstr "e1")])])]

/-- Fixture: store responses for a miss that matches one chunk and one
structured node, with no relationship rows. -/
def fixtureStore : StoreResponses :=
  ⟨.ok [{ node := some fixtureChunkNode, score := 1 }],
    .ok [{ n := some (.vdict [("properties", .vdict [("id", .vstr "e1")])]) }],
    .ok []⟩

/-- Fixture: an empty retrieval result, for cache witnesses. -/
def fixtureResult : HybridRetrievalResult := ⟨"q", [], []⟩

/-- Fixture: the result a miss against `fixtureStore` computes. -/
def fixtureRetrieveResult : HybridRetrievalResult :=
  ⟨"q",
    [⟨"c1", 1, "hello", [("id", .vstr "e1")], none, none, none⟩],
    [⟨.vdict [("properties", .vdict [("id", .vstr "e1")])], []⟩]⟩

/-- Fixture: two chunks sharing candidate id `a`. -/
def fixtureChunks : List RetrievalChunk :=
  [⟨"c1", 0, "", [("id", .vstr "a")], none, none, none⟩,
    ⟨"c2", 0, "", [("id", .vstr "a"), ("x_ids", .vlist [.vstr "b"])],
      none, none, none⟩]

/-! ## Theorems -/

theorem length_dropWhile_le' (p : Char → Bool) (l : List Char) :
    (l.dropWhile p).length ≤ l.length := by
  induction l with
  | nil => simp
  | cons a l ih =>
      rw [List.dropWhile_cons]
      split
      · exact Nat.le_succ_of_le ih
      · simp

theorem pyLen_append (s t : String) : pyLen (s ++ t) = pyLen s + pyLen t := by
  simp [pyLen, String.data_append]

theorem pyLen_rstrip_le (s : String) : pyLen (pyRstrip s) ≤ pyLen s := by
  simpa [pyRstrip, pyLen] using
    length_dropWhile_le' pyIsSpace s.data.reverse

theorem pyLen_strTake_le (s : String) (n : Nat) : pyLen (strTake s n) ≤ n := by
  simp [strTake, pyLen, List.length_take]

/-- C2: over-budget content that is a valid JSON object/array document is
returned unchanged; otherwise, for a budget above 3, the result is the
rstripped prefix of length `budget - 3` followed by `"..."` (hence at most
`budget` long and ending in `"..."`); for a budget of at most 3, the plain
prefix of length `budget`; content within the budget is unchanged. -/
theorem truncate_content_spec (B : Nat) (jsonValid : String → Bool)
    (content : String) (hB : 0 < B) :
    (B < pyLen content →
      (isJsonDocument jsonValid content = true →
        truncateContent B jsonValid content = content) ∧
      (isJsonDocument jsonValid content = false →
        (3 < B →
          truncateContent B jsonValid content
              = pyRstrip (strTake content (B - 3)) ++ "..." ∧
          pyLen (truncateContent B jsonValid content) ≤ B ∧
          ∃ t, truncateContent B jsonValid content = t ++ "...") ∧
        (B ≤ 3 →
          truncateContent B jsonValid content = strTake content B))) ∧
    (pyLen content ≤ B → truncateContent B jsonValid content = content) := by
  constructor
  · intro hlong
    have h0 : ¬ pyLen content = 0 := by omega
    have hB0 : ¬ B = 0 := by omega
    have hle : ¬ pyLen content ≤ B := by omega
    constructor
    · intro hjson
      simp [truncateContent, h0, hB0, hle, hjson]
    · intro hjson
      constructor
      · intro h3
        have h3' : ¬ B ≤ 3 := by omega
        have heq : truncateContent B jsonValid content
            = pyRstrip (strTake content (B - 3)) ++ "..." := by
          simp [truncateContent, h0, hB0, hle, hjson, h3']
        refine ⟨heq, ?_, ⟨_, heq⟩⟩
        rw [heq, pyLen_append]
        have h1 := pyLen_rstrip_le (strTake content (B - 3))
        have h2 := pyLen_strTake_le content (B - 3)
        have hdots : pyLen "..." = 3 := rfl
        omega
      · intro h3
        simp [truncateContent, h0, hB0, hle, hjson, h3]
  · intro hshort
    by_cases h0 : pyLen content = 0
    · simp [truncateContent, h0]
    · simp [truncateContent, h0, hshort]

/-- C2 witness: budget 10, a 15-character non-JSON content. -/
theorem truncate_content_spec_witness :
    0 < 10 ∧ 10 < pyLen "abcdefghijklmno" ∧
    isJsonDocument (fun _ => false) "abcdefghijklmno" = false ∧
    truncateContent 10 (fun _ => false) "abcdefghijklmno"
        = pyRstrip (strTake "abcdefghijklmno" 7) ++ "..." :=
  ⟨by decide, by decide, by decide,
    ((((truncate_content_spec 10 (fun _ => false) "abcdefghijklmno"
      (by decide)).1 (by decide)).2 (by decide)).1 (by decide)).1⟩

/-- C4: a query that trims to the empty string makes `retrieve` fail with
the empty-query error, with zero embedding calls, zero graph calls, and
the cache left untouched. -/
theorem retrieve_empty_query (cfg : ServiceConfig) (oracle : JsonOracle)
    (embedResponse : Except Unit (List (List ℚ))) (store : StoreResponses)
    (tGet tSet : ℚ) (cache : Cache) (query : String)
    (limit structuredLimit : Int)
    (h : pyLen (pyStrip query) = 0) :
    retrieve cfg oracle embedResponse store tGet tSet cache query limit
        structuredLimit
      = ⟨.error .emptyQuery, cache, [], []⟩ := by
  simp [retrieve, h]

/-- C4 witness: the whitespace-only query `"   "`. -/
theorem retrieve_empty_query_witness :
    pyLen (pyStrip "   ") = 0 ∧
    retrieve fixtureCfg fixtureOracle (.ok [[1]]) fixtureStore 0 0 [] "   "
        5 10
      = ⟨.error .emptyQuery, [], [], []⟩ :=
  ⟨by decide,
    retrieve_empty_query fixtureCfg fixtureOracle (.ok [[1]]) fixtureStore
      0 0 [] "   " 5 10 (by decide)⟩

theorem foldl_collectStep (l : List String) (seen acc : List String) :
    (l.foldl collectStep (seen, acc)).2 = acc ++ dedupFirstAux seen l := by
  induction l generalizing seen acc with
  | nil => simp [dedupFirstAux]
  | cons x xs ih =>
      by_cases hx : x ∈ seen
      · simp [collectStep, dedupFirstAux, hx, ih]
      · simp [collectStep, dedupFirstAux, hx, ih]

theorem dedupFirstAux_nodup (l : List String) (seen : List String) :
    (dedupFirstAux seen l).Nodup ∧ ∀ x ∈ dedupFirstAux seen l, x ∉ seen := by
  induction l generalizing seen with
  | nil => simp [dedupFirstAux]
  | cons x xs ih =>
      by_cases hx : x ∈ seen
      · simp only [dedupFirstAux, if_pos hx]
        exact ih seen
      · simp only [dedupFirstAux, if_neg hx]
        obtain ⟨hnd, hout⟩ := ih (x :: seen)
        refine ⟨List.nodup_cons.2 ⟨fun hmem => ?_, hnd⟩, ?_⟩
        · exact (hout x hmem) (List.mem_cons_self x seen)
        · intro y hy
          rcases List.mem_cons.1 hy with rfl | hy'
          · exact hx
          · intro hyseen
            exact (hout y hy') (List.mem_cons_of_mem x hyseen)

/-- C8: candidate-id extraction is the keep-first deduplication of the ids
yielded by scanning chunks in ranked order and metadata keys in their
natural order; the output has no duplicates; and as a pure function it
returns the identical list on identical inputs. -/
theorem collect_candidate_ids_dedup (idKeys : List String)
    (chunks chunks₂ : List RetrievalChunk) (h : chunks = chunks₂) :
    collectCandidateEntityIds idKeys chunks
        = dedupFirst (chunks.flatMap fun ch =>
            yieldMetadataIds idKeys ch.metadata) ∧
    (collectCandidateEntityIds idKeys chunks).Nodup ∧
    collectCandidateEntityIds idKeys chunks
        = collectCandidateEntityIds idKeys chunks₂ := by
  have hmain : collectCandidateEntityIds idKeys chunks
      = dedupFirst (chunks.flatMap fun ch =>
          yieldMetadataIds idKeys ch.metadata) := by
    unfold collectCandidateEntityIds dedupFirst
    rw [foldl_collectStep]
    simp
  refine ⟨hmain, ?_, by rw [h]⟩
  rw [hmain]
  exact (dedupFirstAux_nodup _ []).1

/-- C8 witness: two chunks sharing the id `a`. -/
theorem collect_candidate_ids_dedup_witness :
    collectCandidateEntityIds ["id"] fixtureChunks = dedupFirst ["a", "a", "b"] := by
  have h := (collect_candidate_ids_dedup ["id"] fixtureChunks fixtureChunks
    rfl).1
  rw [show (fixtureChunks.flatMap fun ch =>
    yieldMetadataIds ["id"] ch.metadata) = ["a", "a", "b"] by decide] at h
  exact h

theorem length_evictOldest (m : Nat) (c : Cache) :
    (evictOldest m c).length ≤ m := by
  induction c with
  | nil => simp [evictOldest]
  | cons e rest ih =>
      simp only [evictOldest]
      split
      · exact ih
      · omega

theorem length_cacheErase_le (c : Cache) (q : String) :
    (cacheErase c q).length ≤ c.length :=
  List.length_filter_le _ c

theorem length_cacheErase_lt (c : Cache) (q : String)
    (e : String × ℚ × HybridRetrievalResult)
    (h : List.find? (fun x => x.1 == q) c = some e) :
    (cacheErase c q).length < c.length := by
  induction c with
  | nil => simp at h
  | cons a rest ih =>
      cases hfa : (a.1 == q) with
      | true =>
          have hle := List.length_filter_le (fun x => !(x.1 == q)) rest
          simp only [cacheErase, List.filter_cons, hfa, Bool.not_true,
            List.length_cons, Bool.false_eq_true, ite_false, if_false]
          omega
      | false =>
          simp only [List.find?_cons, hfa] at h
          have hlt := ih h
          simp only [cacheErase, List.filter_cons, hfa, Bool.not_false,
            List.length_cons, ite_true, if_true] at hlt ⊢
          omega

theorem length_cacheMoveToEnd_le (c : Cache) (q : String) :
    (cacheMoveToEnd c q).length ≤ c.length := by
  unfold cacheMoveToEnd
  cases hf : List.find? (fun e => e.1 == q) c with
  | none => exact le_refl _
  | some e =>
      have hlt := length_cacheErase_lt c q e hf
      simp only [List.length_append, List.length_cons, List.length_nil]
      omega

theorem length_getCachedResult_le (m : Nat) (ttl now : ℚ) (cache : Cache)
    (q : String) :
    ((getCachedResult m ttl now cache q).2).length ≤ cache.length := by
  unfold getCachedResult
  by_cases hm : m = 0
  · rw [if_pos hm]
  · rw [if_neg hm]
    cases hl : cacheLookup cache q with
    | none => exact le_refl _
    | some tsr =>
        obtain ⟨ts, r'⟩ := tsr
        dsimp only
        by_cases hc : 0 < ttl ∧ ttl < now - ts
        · rw [if_pos hc]
          exact length_cacheErase_le cache q
        · rw [if_neg hc]
          exact length_cacheMoveToEnd_le cache q

/-- C5: the cache never exceeds the configured maximum entry count: a set
always (re-)establishes the bound when the capacity is positive, a get
never grows the cache, and zero capacity disables caching (get always
misses and leaves the cache alone, set stores nothing). -/
theorem cache_size_bound (m : Nat) (ttl now now2 : ℚ) (cache : Cache)
    (q : String) (r : HybridRetrievalResult) :
    (0 < m → (setCachedResult m now2 cache q r).length ≤ m) ∧
    (cache.length ≤ m → (setCachedResult m now2 cache q r).length ≤ m) ∧
    (cache.length ≤ m →
      ((getCachedResult m ttl now cache q).2).length ≤ m) ∧
    getCachedResult 0 ttl now cache q = (none, cache) ∧
    setCachedResult 0 now2 cache q r = cache := by
  have hset : 0 < m → (setCachedResult m now2 cache q r).length ≤ m := by
    intro hm
    have hm' : ¬ m = 0 := by omega
    simp only [setCachedResult, hm', if_false]
    exact length_evictOldest m _
  refine ⟨hset, ?_, ?_, by simp [getCachedResult], by simp [setCachedResult]⟩
  · intro hlen
    by_cases hm : m = 0
    · subst hm
      have hnoop : setCachedResult 0 now2 cache q r = cache := by
        simp [setCachedResult]
      rw [hnoop]
      exact hlen
    · exact hset (by omega)
  · intro hlen
    exact le_trans (length_getCachedResult_le m ttl now cache q) hlen

/-- C5 witness: capacity 1 with a one-entry cache. -/
theorem cache_size_bound_witness :
    (setCachedResult 1 0 [("a", 0, fixtureResult)] "b" fixtureResult).length
        ≤ 1 ∧
    ((getCachedResult 1 5 0 [("a", 0, fixtureResult)] "b").2).length ≤ 1 ∧
    getCachedResult 0 5 0 [("a", 0, fixtureResult)] "b"
        = (none, [("a", 0, fixtureResult)]) ∧
    setCachedResult 0 0 [("a", 0, fixtureResult)] "b" fixtureResult
        = [("a", 0, fixtureResult)] :=
  ⟨(cache_size_bound 1 5 0 0 [("a", 0, fixtureResult)] "b"
      fixtureResult).1 (by decide),
    (cache_size_bound 1 5 0 0 [("a", 0, fixtureResult)] "b"
      fixtureResult).2.2.1 (by decide),
    (cache_size_bound 0 5 0 0 [("a", 0, fixtureResult)] "b"
      fixtureResult).2.2.2.1,
    (cache_size_bound 0 5 0 0 [("a", 0, fixtureResult)] "b"
      fixtureResult).2.2.2.2⟩

/-- C6: with a positive TTL, a get on an entry whose age strictly exceeds
the TTL misses and evicts that entry; the constructor clamps a
non-positive configured TTL to 0, under which a present entry is always
returned (no age-based expiry). -/
theorem cache_ttl_expiry (m : Nat) (ttl now ts : ℚ) (cache : Cache)
    (q : String) (r : HybridRetrievalResult) (z : ℚ) :
    (0 < m → 0 < ttl → cacheLookup cache q = some (ts, r) →
      ttl < now - ts →
      getCachedResult m ttl now cache q = (none, cacheErase cache q)) ∧
    (z ≤ 0 → clampTtl z = 0) ∧
    (z ≤ 0 → 0 < m → cacheLookup cache q = some (ts, r) →
      getCachedResult m (clampTtl z) now cache q
        = (some r, cacheMoveToEnd cache q)) := by
  have hclamp : z ≤ 0 → clampTtl z = 0 := fun hz => max_eq_left hz
  refine ⟨?_, hclamp, ?_⟩
  · intro hm httl hl hage
    have hm' : ¬ m = 0 := by omega
    simp [getCachedResult, hm', hl, httl, hage]
  · intro hz hm hl
    have hm' : ¬ m = 0 := by omega
    rw [hclamp hz]
    simp [getCachedResult, hm', hl]

/-- C6 witness: TTL 5, entry aged 10; and clamped TTL from `-1`. -/
theorem cache_ttl_expiry_witness :
    getCachedResult 1 5 10 [("a", 0, fixtureResult)] "a"
        = (none, cacheErase [("a", 0, fixtureResult)] "a") ∧
    clampTtl (-1) = 0 ∧
    getCachedResult 1 (clampTtl (-1)) 10 [("a", 0, fixtureResult)] "a"
        = (some fixtureResult, cacheMoveToEnd [("a", 0, fixtureResult)] "a") :=
  ⟨(cache_ttl_expiry 1 5 10 0 [("a", 0, fixtureResult)] "a" fixtureResult
      (-1)).1 (by norm_num) (by norm_num) rfl (by norm_num),
    (cache_ttl_expiry 1 5 10 0 [("a", 0, fixtureResult)] "a" fixtureResult
      (-1)).2.1 (by norm_num),
    (cache_ttl_expiry 1 5 10 0 [("a", 0, fixtureResult)] "a" fixtureResult
      (-1)).2.2 (by norm_num) (by norm_num) rfl⟩

theorem assocGet_assocSet_self (l : List (String × StructuredEntityContext))
    (k : String) (v : StructuredEntityContext) :
    assocGet (assocSet l k v) k = some v := by
  induction l with
  | nil => simp [assocSet, assocGet]
  | cons e rest ih =>
      by_cases he : (e.1 == k) = true
      · simp [assocSet, assocGet, he]
      · simp only [assocSet, he, Bool.false_eq_true, ite_false, if_false]
        simpa [assocGet, List.find?_cons, he] using ih

theorem assocGet_assocSet_ne (l : List (String × StructuredEntityContext))
    (k k' : String) (v : StructuredEntityContext) (h : k' ≠ k) :
    assocGet (assocSet l k v) k' = assocGet l k' := by
  have hkk : (k == k') = false := by
    simp [beq_eq_false_iff_ne]
    exact fun heq => h heq.symm
  induction l with
  | nil => simp [assocSet, assocGet, List.find?_cons, hkk]
  | cons e rest ih =>
      by_cases he : (e.1 == k) = true
      · have he1 : e.1 = k := by simpa using he
        simp [assocSet, assocGet, List.find?_cons, he, hkk, he1]
      · simp only [assocSet, he, Bool.false_eq_true, ite_false, if_false]
        by_cases he' : (e.1 == k') = true
        · simp [assocGet, List.find?_cons, he']
        · simpa [assocGet, List.find?_cons, he'] using ih

theorem assocGet_mem (l : List (String × StructuredEntityContext))
    (k : String) (v : StructuredEntityContext)
    (h : assocGet l k = some v) : (k, v) ∈ l := by
  unfold assocGet at h
  rw [Option.map_eq_some'] at h
  obtain ⟨e, hfind, hev⟩ := h
  have hmem := List.mem_of_find?_eq_some hfind
  have hkey := List.find?_some hfind
  have hkey' : e.1 = k := by simpa using hkey
  have : e = (k, v) := by
    cases e
    simp_all
  rw [← this]
  exact hmem

theorem mem_assocSet (l : List (String × StructuredEntityContext))
    (k : String) (v : StructuredEntityContext)
    (p : String × StructuredEntityContext) (h : p ∈ assocSet l k v) :
    p ∈ l ∨ p = (k, v) := by
  induction l with
  | nil => simpa [assocSet] using h
  | cons e rest ih =>
      by_cases he : (e.1 == k) = true
      · simp only [assocSet, he, ite_true, if_true] at h
        rcases List.mem_cons.1 h with rfl | hrest
        · exact Or.inr rfl
        · exact Or.inl (List.mem_cons_of_mem e hrest)
      · simp only [assocSet, he, Bool.false_eq_true, ite_false, if_false] at h
        rcases List.mem_cons.1 h with rfl | hrest
        · exact Or.inl (List.mem_cons_self _ _)
        · rcases ih hrest with hl | hv
          · exact Or.inl (List.mem_cons_of_mem e hl)
          · exact Or.inr hv

theorem contextNodeId_of_nodeRecordId (record : NodeRecord) (nd : PyVal)
    (i : String) (rels : List StructuredRelationship)
    (hn : record.n = some nd) (hid : nodeRecordId record = some i) :
    contextNodeId ⟨nd, rels⟩ = i := by
  unfold nodeRecordId at hid
  rw [hn] at hid
  cases ht : truthy nd with
  | false => simp [ht] at hid
  | true =>
      simp only [ht, Bool.not_true, Bool.false_eq_true, ite_false,
        if_false] at hid
      cases hg : pvGet ((pvGet nd "properties").getD (.vdict [])) "id" with
      | none => simp [hg] at hid
      | some idVal =>
          simp only [hg] at hid
          cases hti : truthy idVal with
          | false => simp [hti] at hid
          | true =>
              simp only [hti, Bool.not_true, Bool.false_eq_true, ite_false,
                if_false, Option.some.injEq] at hid
              simp [contextNodeId, hg, ← hid]

theorem isSome_assocGet_nodeLookup (recs : List NodeRecord)
    (init : List (String × StructuredEntityContext)) (i : String) :
    (assocGet (recs.foldl nodeLookupStep init) i).isSome = true ↔
      i ∈ foundNodeIds recs ∨ (assocGet init i).isSome = true := by
  induction recs generalizing init with
  | nil => simp [foundNodeIds]
  | cons rec rest ih =>
      rw [List.foldl_cons]
      cases hid : nodeRecordId rec with
      | none =>
          have hstep : nodeLookupStep init rec = init := by
            unfold nodeLookupStep
            cases rec.n <;> simp [hid]
          rw [hstep, ih]
          simp [foundNodeIds, List.filterMap_cons, hid]
      | some nodeId =>
          cases hn : rec.n with
          | none =>
              exact absurd hid (by simp [nodeRecordId, hn])
          | some nd =>
              have hstep : nodeLookupStep init rec
                  = assocSet init nodeId ⟨nd, []⟩ := by
                unfold nodeLookupStep
                rw [hn, hid]
              rw [hstep, ih]
              simp only [foundNodeIds, List.filterMap_cons, hid,
                List.mem_cons]
              by_cases hik : i = nodeId
              · subst hik
                simp [assocGet_assocSet_self]
              · rw [assocGet_assocSet_ne init nodeId i ⟨nd, []⟩ hik]
                simp only [foundNodeIds] at *
                tauto

theorem nodeLookup_values_wf (recs : List NodeRecord)
    (init : List (String × StructuredEntityContext))
    (hinit : ∀ p ∈ init, contextNodeId p.2 = p.1 ∧ p.2.relationships = []) :
    ∀ p ∈ recs.foldl nodeLookupStep init,
      contextNodeId p.2 = p.1 ∧ p.2.relationships = [] := by
  induction recs generalizing init with
  | nil => simpa using hinit
  | cons rec rest ih =>
      rw [List.foldl_cons]
      refine ih (nodeLookupStep init rec) ?_
      intro p hp
      unfold nodeLookupStep at hp
      cases hn : rec.n with
      | none =>
          rw [hn] at hp
          exact hinit p hp
      | some nd =>
          rw [hn] at hp
          cases hid : nodeRecordId rec with
          | none =>
              rw [hid] at hp
              exact hinit p hp
          | some nodeId =>
              rw [hid] at hp
              rcases mem_assocSet _ _ _ _ hp with hmem | rfl
              · exact hinit p hmem
              · exact ⟨contextNodeId_of_nodeRecordId rec nd nodeId [] hn hid,
                  rfl⟩

theorem attachStep_cases (lk : List (String × StructuredEntityContext))
    (record : RelRecord) :
    attachStep lk record = lk ∨
      ∃ sid ctx rel, record.source_id = some sid ∧
        assocGet lk (pyStr sid) = some ctx ∧
        attachStep lk record = assocSet lk (pyStr sid)
          { ctx with relationships := ctx.relationships ++ [rel] } := by
  unfold attachStep
  cases hs : record.source_id with
  | none => exact Or.inl rfl
  | some sid =>
      cases hg : assocGet lk (pyStr sid) with
      | none =>
          left
          simp [hg]
      | some ctx =>
          cases hr : relOfRecord record with
          | none =>
              left
              simp [hg, hr]
          | some rel =>
              right
              exact ⟨sid, ctx, rel, rfl, hg, by simp [hg, hr]⟩

theorem attachRels_get_of_no_source (recs : List RelRecord)
    (lk : List (String × StructuredEntityContext)) (i : String)
    (h : ∀ rec ∈ recs, relSourceKey rec ≠ some i) :
    assocGet (recs.foldl attachStep lk) i = assocGet lk i := by
  induction recs generalizing lk with
  | nil => simp
  | cons rec rest ih =>
      rw [List.foldl_cons]
      have hrest : ∀ r ∈ rest, relSourceKey r ≠ some i := fun r hr =>
        h r (List.mem_cons_of_mem rec hr)
      rw [ih (attachStep lk rec) hrest]
      rcases attachStep_cases lk rec with heq | ⟨sid, ctx, rel, hs, hg, heq⟩
      · rw [heq]
      · rw [heq]
        have hne : i ≠ pyStr sid := by
          intro hcontra
          exact h rec (List.mem_cons_self rec rest)
            (by simp [relSourceKey, hs, hcontra])
        exact assocGet_assocSet_ne lk (pyStr sid) i _ hne

theorem attachRels_isSome (recs : List RelRecord)
    (lk : List (String × StructuredEntityContext)) (i : String) :
    (assocGet (recs.foldl attachStep lk) i).isSome
      = (assocGet lk i).isSome := by
  induction recs generalizing lk with
  | nil => simp
  | cons rec rest ih =>
      rw [List.foldl_cons, ih (attachStep lk rec)]
      rcases attachStep_cases lk rec with heq | ⟨sid, ctx, rel, hs, hg, heq⟩
      · rw [heq]
      · rw [heq]
        by_cases hik : i = pyStr sid
        · subst hik
          rw [assocGet_assocSet_self, hg]
          rfl
        · rw [assocGet_assocSet_ne lk (pyStr sid) i _ hik]

theorem attachRels_values_wf (recs : List RelRecord)
    (lk : List (String × StructuredEntityContext))
    (hlk : ∀ p ∈ lk, contextNodeId p.2 = p.1) :
    ∀ p ∈ recs.foldl attachStep lk, contextNodeId p.2 = p.1 := by
  induction recs generalizing lk with
  | nil => simpa using hlk
  | cons rec rest ih =>
      rw [List.foldl_cons]
      refine ih (attachStep lk rec) ?_
      intro p hp
      rcases attachStep_cases lk rec with heq | ⟨sid, ctx, rel, hs, hg, heq⟩
      · rw [heq] at hp
        exact hlk p hp
      · rw [heq] at hp
        rcases mem_assocSet _ _ _ _ hp with hmem | rfl
        · exact hlk p hmem
        · have hctx := hlk _ (assocGet_mem lk (pyStr sid) ctx hg)
          simpa [contextNodeId] using hctx

theorem map_filterMap_of_get (l : List String)
    (f : String → Option StructuredEntityContext)
    (h : ∀ i ctx, f i = some ctx → contextNodeId ctx = i) :
    (l.filterMap f).map contextNodeId
      = l.filter (fun i => (f i).isSome) := by
  induction l with
  | nil => simp
  | cons i rest ih =>
      cases hf : f i with
      | none => simp [List.filterMap_cons, List.filter_cons, hf, ih]
      | some ctx =>
          simp [List.filterMap_cons, List.filter_cons, hf, ih, h i ctx hf]

/-- C7: the structured-context loader returns contexts ordered exactly by
the input candidate-id order (the output's node ids are the input list
filtered to the ids the node query matched); candidate ids with no
matching node are silently dropped; and a matched id that no relationship
row references still appears, with an empty relationship list. -/
theorem load_structured_context_order (entityIds : List String)
    (structuredLimit : Int) (nodeRecords : List NodeRecord)
    (relRecords : List RelRecord) :
    ((loadStructuredContext entityIds structuredLimit nodeRecords
        relRecords).1.map contextNodeId
      = entityIds.filter (fun i => decide (i ∈ foundNodeIds nodeRecords))) ∧
    (∀ i ∈ entityIds, i ∈ foundNodeIds nodeRecords →
      (∀ rec ∈ relRecords, relSourceKey rec ≠ some i) →
      ∃ ctx ∈ (loadStructuredContext entityIds structuredLimit nodeRecords
          relRecords).1,
        contextNodeId ctx = i ∧ ctx.relationships = []) := by
  have hmem : ∀ i, (assocGet (buildNodeLookup nodeRecords) i).isSome = true ↔
      i ∈ foundNodeIds nodeRecords := by
    intro i
    unfold buildNodeLookup
    rw [isSome_assocGet_nodeLookup]
    simp [assocGet]
  have hwf := nodeLookup_values_wf nodeRecords [] (by simp)
  by_cases hemp : (buildNodeLookup nodeRecords).isEmpty = true
  · have hnil : buildNodeLookup nodeRecords = [] := by
      simpa using hemp
    have hout : (loadStructuredContext entityIds structuredLimit nodeRecords
        relRecords).1 = [] := by
      simp [loadStructuredContext, hemp]
    have hfound : ∀ i, i ∉ foundNodeIds nodeRecords := by
      intro i hi
      have hsome := (hmem i).2 hi
      rw [hnil] at hsome
      simp [assocGet] at hsome
    refine ⟨?_, ?_⟩
    · rw [hout]
      simp only [List.map_nil]
      symm
      rw [List.filter_eq_nil_iff]
      intro a _
      simp [hfound a]
    · intro i _ hif _
      exact absurd hif (hfound i)
  · have hout : (loadStructuredContext entityIds structuredLimit nodeRecords
        relRecords).1
        = entityIds.filterMap
            (assocGet (attachRels (buildNodeLookup nodeRecords)
              relRecords)) := by
      simp [loadStructuredContext, hemp]
    have hwfF : ∀ p ∈ attachRels (buildNodeLookup nodeRecords) relRecords,
        contextNodeId p.2 = p.1 :=
      attachRels_values_wf relRecords (buildNodeLookup nodeRecords)
        (fun p hp => (hwf p hp).1)
    have hget_id : ∀ i ctx,
        assocGet (attachRels (buildNodeLookup nodeRecords) relRecords) i
          = some ctx → contextNodeId ctx = i := by
      intro i ctx hg
      exact hwfF (i, ctx) (assocGet_mem _ _ _ hg)
    constructor
    · rw [hout, map_filterMap_of_get entityIds _ hget_id]
      refine List.filter_congr ?_
      intro i _
      rw [show (attachRels (buildNodeLookup nodeRecords) relRecords) =
        List.foldl attachStep (buildNodeLookup nodeRecords) relRecords
        from rfl]
      rw [attachRels_isSome relRecords (buildNodeLookup nodeRecords) i]
      by_cases hf : i ∈ foundNodeIds nodeRecords
      · simp [(hmem i).2 hf, hf]
      · have hnot : (assocGet (buildNodeLookup nodeRecords) i).isSome
            = false := by
          rcases Bool.eq_false_or_eq_true
            ((assocGet (buildNodeLookup nodeRecords) i).isSome) with hb | hb
          · exact absurd ((hmem i).1 hb) hf
          · exact hb
        simp [hnot, hf]
    · intro i hi hif hnorels
      have hS : (assocGet (buildNodeLookup nodeRecords) i).isSome = true :=
        (hmem i).2 hif
      obtain ⟨ctx, hgl⟩ := Option.isSome_iff_exists.1 hS
      have hv := hwf (i, ctx) (assocGet_mem _ _ _ hgl)
      have hgF : assocGet (attachRels (buildNodeLookup nodeRecords)
          relRecords) i = some ctx := by
        rw [show (attachRels (buildNodeLookup nodeRecords) relRecords) =
          List.foldl attachStep (buildNodeLookup nodeRecords) relRecords
          from rfl]
        rw [attachRels_get_of_no_source relRecords
          (buildNodeLookup nodeRecords) i hnorels]
        exact hgl
      refine ⟨ctx, ?_, hv.1, hv.2⟩
      rw [hout]
      exact List.mem_filterMap.2 ⟨i, hi, hgF⟩

/-- C7 witness: candidate list `["e1", "missing"]` against the fixture
store (node `e1` found, no relationship rows). -/
theorem load_structured_context_order_witness :
    ((loadStructuredContext ["e1", "missing"] 10
        [{ n := some (.vdict [("properties", .vdict [("id", .vstr "e1")])]) }]
        []).1.map contextNodeId
      = ["e1", "missing"].filter (fun i => decide (i ∈ foundNodeIds
          [{ n := some (.vdict [("properties",
            .vdict [("id", .vstr "e1")])]) }]))) ∧
    ∃ ctx ∈ (loadStructuredContext ["e1", "missing"] 10
        [{ n := some (.vdict [("properties", .vdict [("id", .vstr "e1")])]) }]
        []).1,
      contextNodeId ctx = "e1" ∧ ctx.relationships = [] :=
  ⟨(load_structured_context_order ["e1", "missing"] 10
      [{ n := some (.vdict [("properties", .vdict [("id", .vstr "e1")])]) }]
      []).1,
    (load_structured_context_order ["e1", "missing"] 10
      [{ n := some (.vdict [("properties", .vdict [("id", .vstr "e1")])]) }]
      []).2 "e1" (by decide) (by decide) (by simp)⟩

theorem retrieve_eq_retrieveMiss (cfg : ServiceConfig) (oracle : JsonOracle)
    (embedResponse : Except Unit (List (List ℚ))) (store : StoreResponses)
    (tGet tSet : ℚ) (cache : Cache) (query : String)
    (limit structuredLimit : Int)
    (hq : ¬ pyLen (pyStrip query) = 0)
    (hmiss : (getCachedResult cfg.cacheMaxEntries cfg.cacheTtlSeconds tGet
      cache (pyStrip query)).1 = none) :
    retrieve cfg oracle embedResponse store tGet tSet cache query limit
        structuredLimit
      = retrieveMiss cfg oracle embedResponse store tSet
          (getCachedResult cfg.cacheMaxEntries cfg.cacheTtlSeconds tGet cache
            (pyStrip query)).2
          (pyStrip query) limit structuredLimit := by
  unfold retrieve
  simp only [hq, ite_false, if_false]
  have hpair : getCachedResult cfg.cacheMaxEntries cfg.cacheTtlSeconds tGet
      cache (pyStrip query)
      = (none, (getCachedResult cfg.cacheMaxEntries cfg.cacheTtlSeconds tGet
          cache (pyStrip query)).2) := by
    rw [← hmiss]
  rw [hpair]

theorem mem_loadStructuredContext_ids (entityIds : List String)
    (structuredLimit : Int) (nodeRecords : List NodeRecord)
    (relRecords : List RelRecord) (ctx : StructuredEntityContext)
    (hctx : ctx ∈ (loadStructuredContext entityIds structuredLimit
      nodeRecords relRecords).1) :
    contextNodeId ctx ∈ entityIds := by
  have hwf := nodeLookup_values_wf nodeRecords [] (by simp)
  unfold loadStructuredContext at hctx
  by_cases hemp : (buildNodeLookup nodeRecords).isEmpty = true
  · simp [hemp] at hctx
  · simp only [hemp, Bool.false_eq_true, ite_false, if_false] at hctx
    obtain ⟨i, hi, hget⟩ := List.mem_filterMap.1 hctx
    have hwfF : ∀ p ∈ attachRels (buildNodeLookup nodeRecords) relRecords,
        contextNodeId p.2 = p.1 :=
      attachRels_values_wf relRecords (buildNodeLookup nodeRecords)
        (fun p hp => (hwf p hp).1)
    have hid : contextNodeId ctx = i :=
      hwfF (i, ctx) (assocGet_mem _ _ _ hget)
    rw [hid]
    exact hi

theorem retrieveMiss_ok_structured (cfg : ServiceConfig)
    (oracle : JsonOracle) (embedResponse : Except Unit (List (List ℚ)))
    (store : StoreResponses) (tSet : ℚ) (cacheAfterGet : Cache)
    (canonical : String) (limit structuredLimit : Int)
    (res : HybridRetrievalResult)
    (hok : (retrieveMiss cfg oracle embedResponse store tSet cacheAfterGet
      canonical limit structuredLimit).result = .ok res) :
    ∀ ctx ∈ res.structured_entities,
      contextNodeId ctx ∈ collectCandidateEntityIds cfg.metadataIdKeys
        res.chunks := by
  unfold retrieveMiss at hok
  cases hE : embedQuery embedResponse with
  | error e => rw [hE] at hok; exact absurd hok (by simp)
  | ok v =>
      rw [hE] at hok
      cases hV : store.vector with
      | error u => rw [hV] at hok; exact absurd hok (by simp)
      | ok records =>
          rw [hV] at hok
          dsimp only at hok
          by_cases hids : (collectCandidateEntityIds cfg.metadataIdKeys
              (buildChunks cfg.chunkContentTruncateChars oracle
                records)).isEmpty = true
          · rw [if_pos hids] at hok
            simp only [Except.ok.injEq] at hok
            subst hok
            intro ctx hctx
            simp at hctx
          · rw [if_neg hids] at hok
            cases hS : retrieveStructured store structuredLimit
              (collectCandidateEntityIds cfg.metadataIdKeys
                (buildChunks cfg.chunkContentTruncateChars oracle records))
              with
            | mk outcome structuredCalls =>
                rw [hS] at hok
                cases outcome with
                | error e => exact absurd hok (by simp)
                | ok sc =>
                    simp only [Except.ok.injEq] at hok
                    subst hok
                    intro ctx hctx
                    simp only at hctx ⊢
                    unfold retrieveStructured at hS
                    cases hN : store.nodes with
                    | error u => rw [hN] at hS; simp at hS
                    | ok nodeRecords =>
                        rw [hN] at hS
                        dsimp only at hS
                        by_cases hemp : (buildNodeLookup
                            nodeRecords).isEmpty = true
                        · rw [if_pos hemp] at hS
                          simp only [Prod.mk.injEq, Except.ok.injEq] at hS
                          rw [← hS.1] at hctx
                          simp at hctx
                        · rw [if_neg hemp] at hS
                          cases hR : store.rels with
                          | error u => rw [hR] at hS; simp at hS
                          | ok relRecords =>
                              rw [hR] at hS
                              simp only [Prod.mk.injEq,
                                Except.ok.injEq] at hS
                              rw [← hS.1] at hctx
                              exact mem_loadStructuredContext_ids _ _ _ _
                                ctx hctx

/-- C10: a metadata value that is neither a string nor a list/tuple yields
no candidate id; non-string elements of a list value under a `_ids` key
are skipped; and every structured entity of a freshly computed retrieval
result carries an id from the candidate list extracted from that result's
chunks, so a non-string identifier can never contribute one. -/
theorem metadata_id_typing :
    (∀ (idKeys : List String) (k : String) (v : PyVal)
        (md : List (String × PyVal)),
      v.isStr = false → v.isList = false →
      yieldMetadataIds idKeys ((k, v) :: md) = yieldMetadataIds idKeys md) ∧
    (∀ (idKeys : List String) (k : String) (items : List PyVal)
        (md : List (String × PyVal)),
      yieldMetadataIds idKeys ((k, .vlist items) :: md)
        = (if strEndsWith (pyLower k) "_ids" = true
            then items.filterMap stringItem else [])
          ++ yieldMetadataIds idKeys md) ∧
    (∀ (cfg : ServiceConfig) (oracle : JsonOracle)
        (embedResponse : Except Unit (List (List ℚ)))
        (store : StoreResponses) (tGet tSet : ℚ) (cache : Cache)
        (query : String) (limit structuredLimit : Int)
        (res : HybridRetrievalResult),
      (retrieve cfg oracle embedResponse store tGet tSet cache query limit
          structuredLimit).result = .ok res →
      (getCachedResult cfg.cacheMaxEntries cfg.cacheTtlSeconds tGet cache
          (pyStrip query)).1 = none →
      ∀ ctx ∈ res.structured_entities,
        contextNodeId ctx ∈ collectCandidateEntityIds cfg.metadataIdKeys
          res.chunks) := by
  refine ⟨?_, ?_, ?_⟩
  · intro idKeys k v md hstr hlist
    cases v <;> simp_all [yieldMetadataIds, PyVal.isStr, PyVal.isList]
  · intro idKeys k items md
    simp [yieldMetadataIds]
  · intro cfg oracle embedResponse store tGet tSet cache query limit
      structuredLimit res hok hmiss
    by_cases hq : pyLen (pyStrip query) = 0
    · rw [show retrieve cfg oracle embedResponse store tGet tSet cache query
          limit structuredLimit
          = ⟨.error .emptyQuery, cache, [], []⟩ from by
        simp [retrieve, hq]] at hok
      exact absurd hok (by simp)
    · rw [retrieve_eq_retrieveMiss cfg oracle embedResponse store tGet tSet
        cache query limit structuredLimit hq hmiss] at hok
      exact retrieveMiss_ok_structured cfg oracle embedResponse store tSet
        _ (pyStrip query) limit structuredLimit res hok

/-- C10 witness: an integer under `"id"` and a mixed `_ids` list, and the
fixture miss whose structured entity carries a candidate id. -/
theorem metadata_id_typing_witness :
    yieldMetadataIds ["id"] [("id", .vint 7)] = yieldMetadataIds ["id"] [] ∧
    yieldMetadataIds ["id"]
        [("tag_ids", .vlist [.vstr "x", .vint 3, .vstr "y"])]
      = (if strEndsWith (pyLower "tag_ids") "_ids" = true
          then [.vstr "x", .vint 3, .vstr "y"].filterMap stringItem else [])
        ++ yieldMetadataIds ["id"] [] ∧
    ∀ ctx ∈ fixtureRetrieveResult.structured_entities,
      contextNodeId ctx ∈ collectCandidateEntityIds
        fixtureCfg.metadataIdKeys fixtureRetrieveResult.chunks :=
  ⟨metadata_id_typing.1 ["id"] "id" (.vint 7) [] rfl rfl,
    metadata_id_typing.2.1 ["id"] "tag_ids" [.vstr "x", .vint 3, .vstr "y"]
      [],
    metadata_id_typing.2.2 fixtureCfg fixtureOracle (.ok [[1]]) fixtureStore
      0 0 [] "q" 5 10 fixtureRetrieveResult rfl rfl⟩

theorem calls_cons_bounds (n : String) (l : Int) (calls : List GraphCall)
    (hc0 : calls.countP (fun c => c.isVector) = 0)
    (hlen : calls.length ≤ 2) :
    ((GraphCall.vectorQuery n l :: calls).countP (fun c => c.isVector)) ≤ 1 ∧
    ((GraphCall.vectorQuery n l :: calls).countP
      (fun c => c.isStructured)) ≤ 2 ∧
    (GraphCall.vectorQuery n l :: calls).length ≤ 3 := by
  have h1 : (GraphCall.vectorQuery n l :: calls).countP
      (fun c => c.isVector) = calls.countP (fun c => c.isVector) + 1 := by
    rw [List.countP_cons]
    simp [GraphCall.isVector]
  have h2 : (GraphCall.vectorQuery n l :: calls).countP
      (fun c => c.isStructured) = calls.countP (fun c => c.isStructured) := by
    rw [List.countP_cons]
    simp [GraphCall.isStructured]
  have h3 := List.countP_le_length (fun c => c.isStructured) (l := calls)
  refine ⟨?_, ?_, ?_⟩
  · rw [h1, hc0]
  · rw [h2]
    omega
  · simp only [List.length_cons]
    omega

theorem retrieveStructured_calls (store : StoreResponses) (sl : Int)
    (ids : List String) :
    ((retrieveStructured store sl ids).2.countP (fun c => c.isVector)) = 0 ∧
    ((retrieveStructured store sl ids).2).length ≤ 2 := by
  unfold retrieveStructured
  cases hN : store.nodes with
  | error u => simp [List.countP_cons, GraphCall.isVector]
  | ok nodeRecords =>
      dsimp only
      by_cases hemp : (buildNodeLookup nodeRecords).isEmpty = true
      · rw [if_pos hemp]
        simp [List.countP_cons, GraphCall.isVector]
      · rw [if_neg hemp]
        cases hR : store.rels with
        | error u => simp [List.countP_cons, GraphCall.isVector]
        | ok relRecords =>
            dsimp only
            unfold loadStructuredContext
            rw [if_neg hemp]
            simp [List.countP_cons, GraphCall.isVector]

/-- C1 (amended): a cache miss on a non-empty trimmed query performs at
most one embedding call and at most three graph-store calls: at most one
`execute_query` for the similarity search and at most two for the
structured-context load. -/
theorem retrieve_miss_call_budget (cfg : ServiceConfig)
    (oracle : JsonOracle) (embedResponse : Except Unit (List (List ℚ)))
    (store : StoreResponses) (tGet tSet : ℚ) (cache : Cache)
    (query : String) (limit structuredLimit : Int)
    (hq : ¬ pyLen (pyStrip query) = 0)
    (hmiss : (getCachedResult cfg.cacheMaxEntries cfg.cacheTtlSeconds tGet
      cache (pyStrip query)).1 = none) :
    (retrieve cfg oracle embedResponse store tGet tSet cache query limit
        structuredLimit).embedBatches.length ≤ 1 ∧
    ((retrieve cfg oracle embedResponse store tGet tSet cache query limit
        structuredLimit).graphCalls.countP (fun c => c.isVector)) ≤ 1 ∧
    ((retrieve cfg oracle embedResponse store tGet tSet cache query limit
        structuredLimit).graphCalls.countP (fun c => c.isStructured)) ≤ 2 ∧
    (retrieve cfg oracle embedResponse store tGet tSet cache query limit
        structuredLimit).graphCalls.length ≤ 3 := by
  rw [retrieve_eq_retrieveMiss cfg oracle embedResponse store tGet tSet
    cache query limit structuredLimit hq hmiss]
  unfold retrieveMiss
  cases hE : embedQuery embedResponse with
  | error e => simp
  | ok v =>
      cases hV : store.vector with
      | error u =>
          simp [List.countP_cons, GraphCall.isVector, GraphCall.isStructured]
      | ok records =>
          dsimp only
          by_cases hids : (collectCandidateEntityIds cfg.metadataIdKeys
              (buildChunks cfg.chunkContentTruncateChars oracle
                records)).isEmpty = true
          · rw [if_pos hids]
            simp [List.countP_cons, GraphCall.isVector,
              GraphCall.isStructured]
          · rw [if_neg hids]
            obtain ⟨hc0, hlen⟩ := retrieveStructured_calls store
              structuredLimit (collectCandidateEntityIds cfg.metadataIdKeys
                (buildChunks cfg.chunkContentTruncateChars oracle records))
            cases hS : retrieveStructured store structuredLimit
              (collectCandidateEntityIds cfg.metadataIdKeys
                (buildChunks cfg.chunkContentTruncateChars oracle records))
              with
            | mk outcome structuredCalls =>
                rw [hS] at hc0 hlen
                dsimp only at hc0 hlen
                obtain ⟨hb1, hb2, hb3⟩ := calls_cons_bounds
                  cfg.chunkIndexName (max 1 limit) structuredCalls hc0 hlen
                cases outcome with
                | error e =>
                    exact ⟨by simp, by simpa using hb1, by simpa using hb2,
                      by simpa using hb3⟩
                | ok sc =>
                    exact ⟨by simp, by simpa using hb1, by simpa using hb2,
                      by simpa using hb3⟩

/-- C1 counterexample: a miss against the fixture store issues three
`execute_query` calls (similarity, node lookup, relationship lookup), so
"at most two graph-store calls per miss" fails as stated. -/
theorem retrieve_miss_three_graph_calls :
    pyLen (pyStrip "q") ≠ 0 ∧
    (getCachedResult fixtureCfg.cacheMaxEntries fixtureCfg.cacheTtlSeconds
      0 [] (pyStrip "q")).1 = none ∧
    (retrieve fixtureCfg fixtureOracle (.ok [[1]]) fixtureStore 0 0 [] "q"
      5 10).graphCalls.length = 3 ∧
    ¬ ((retrieve fixtureCfg fixtureOracle (.ok [[1]]) fixtureStore 0 0 []
      "q" 5 10).graphCalls.length ≤ 2) :=
  ⟨by decide, rfl, rfl, by decide⟩

/-- C1 witness for the amended bound, at the fixture miss. -/
theorem retrieve_miss_call_budget_witness :
    (retrieve fixtureCfg fixtureOracle (.ok [[1]]) fixtureStore 0 0 [] "q"
        5 10).embedBatches.length ≤ 1 ∧
    ((retrieve fixtureCfg fixtureOracle (.ok [[1]]) fixtureStore 0 0 [] "q"
        5 10).graphCalls.countP (fun c => c.isVector)) ≤ 1 ∧
    ((retrieve fixtureCfg fixtureOracle (.ok [[1]]) fixtureStore 0 0 [] "q"
        5 10).graphCalls.countP (fun c => c.isStructured)) ≤ 2 ∧
    (retrieve fixtureCfg fixtureOracle (.ok [[1]]) fixtureStore 0 0 [] "q"
        5 10).graphCalls.length ≤ 3 :=
  retrieve_miss_call_budget fixtureCfg fixtureOracle (.ok [[1]])
    fixtureStore 0 0 [] "q" 5 10 (by decide) rfl

theorem retrieveStructured_mem (store : StoreResponses) (sl : Int)
    (ids : List String) :
    ∀ c ∈ (retrieveStructured store sl ids).2,
      (∃ eids, c = GraphCall.nodesQuery eids) ∨
      (∃ eids, c = GraphCall.relsQuery eids (max 0 sl)) := by
  unfold retrieveStructured
  cases hN : store.nodes with
  | error u =>
      intro c hc
      simp only [List.mem_singleton] at hc
      exact Or.inl ⟨ids, hc⟩
  | ok nodeRecords =>
      dsimp only
      by_cases hemp : (buildNodeLookup nodeRecords).isEmpty = true
      · rw [if_pos hemp]
        intro c hc
        simp only [List.mem_singleton] at hc
        exact Or.inl ⟨ids, hc⟩
      · rw [if_neg hemp]
        cases hR : store.rels with
        | error u =>
            intro c hc
            rcases List.mem_cons.1 hc with rfl | hc'
            · exact Or.inl ⟨ids, rfl⟩
            · simp only [List.mem_singleton] at hc'
              exact Or.inr ⟨_, hc'⟩
        | ok relRecords =>
            dsimp only
            unfold loadStructuredContext
            rw [if_neg hemp]
            intro c hc
            rcases List.mem_cons.1 hc with rfl | hc'
            · exact Or.inl ⟨ids, rfl⟩
            · simp only [List.mem_singleton] at hc'
              exact Or.inr ⟨_, hc'⟩

theorem retrieveMiss_limits (cfg : ServiceConfig) (oracle : JsonOracle)
    (embedResponse : Except Unit (List (List ℚ))) (store : StoreResponses)
    (tSet : ℚ) (cacheAfterGet : Cache) (canonical : String)
    (limit structuredLimit : Int) :
    (∀ n l, GraphCall.vectorQuery n l ∈ (retrieveMiss cfg oracle
        embedResponse store tSet cacheAfterGet canonical limit
        structuredLimit).graphCalls → l = max 1 limit) ∧
    (∀ ids l, GraphCall.relsQuery ids l ∈ (retrieveMiss cfg oracle
        embedResponse store tSet cacheAfterGet canonical limit
        structuredLimit).graphCalls → l = max 0 structuredLimit) := by
  unfold retrieveMiss
  cases hE : embedQuery embedResponse with
  | error e => simp
  | ok v =>
      cases hV : store.vector with
      | error u =>
          constructor
          · intro n l hmem
            simp only [List.mem_singleton] at hmem
            injection hmem with h1 h2
          · intro ids l hmem
            simp only [List.mem_singleton] at hmem
            exact absurd hmem (by simp)
      | ok records =>
          dsimp only
          by_cases hids : (collectCandidateEntityIds cfg.metadataIdKeys
              (buildChunks cfg.chunkContentTruncateChars oracle
                records)).isEmpty = true
          · rw [if_pos hids]
            constructor
            · intro n l hmem
              simp only [List.mem_singleton] at hmem
              injection hmem with h1 h2
            · intro ids l hmem
              simp only [List.mem_singleton] at hmem
              exact absurd hmem (by simp)
          · rw [if_neg hids]
            have hsub := retrieveStructured_mem store structuredLimit
              (collectCandidateEntityIds cfg.metadataIdKeys
                (buildChunks cfg.chunkContentTruncateChars oracle records))
            cases hS : retrieveStructured store structuredLimit
              (collectCandidateEntityIds cfg.metadataIdKeys
                (buildChunks cfg.chunkContentTruncateChars oracle records))
              with
            | mk outcome structuredCalls =>
                rw [hS] at hsub
                dsimp only at hsub
                have hvec : ∀ n l, GraphCall.vectorQuery n l ∈
                    GraphCall.vectorQuery cfg.chunkIndexName (max 1 limit)
                      :: structuredCalls → l = max 1 limit := by
                  intro n l hmem
                  rcases List.mem_cons.1 hmem with heq | hmem'
                  · injection heq with h1 h2
                  · rcases hsub _ hmem' with ⟨eids, heq⟩ | ⟨eids, heq⟩ <;>
                      exact absurd heq (by simp)
                have hrels : ∀ ids l, GraphCall.relsQuery ids l ∈
                    GraphCall.vectorQuery cfg.chunkIndexName (max 1 limit)
                      :: structuredCalls → l = max 0 structuredLimit := by
                  intro ids l hmem
                  rcases List.mem_cons.1 hmem with heq | hmem'
                  · exact absurd heq (by simp)
                  · rcases hsub _ hmem' with ⟨eids, heq⟩ | ⟨eids, heq⟩
                    · exact absurd heq (by simp)
                    · injection heq with h1 h2
                cases outcome with
                | error e => exact ⟨hvec, hrels⟩
                | ok sc => exact ⟨hvec, hrels⟩

/-- C3 (amended): the similarity query's `$limit` is the callee-clamped
`max(1, limit)` (hence at least 1); the relationship query's `$limit` is
the callee-clamped `max(0, structured_limit)` — a floor of 0, not 1;
`retrieve` itself passes both arguments through unclamped. -/
theorem retrieve_limit_clamps (cfg : ServiceConfig) (oracle : JsonOracle)
    (embedResponse : Except Unit (List (List ℚ))) (store : StoreResponses)
    (tGet tSet : ℚ) (cache : Cache) (query : String)
    (limit structuredLimit : Int) :
    (∀ n l, GraphCall.vectorQuery n l ∈ (retrieve cfg oracle embedResponse
        store tGet tSet cache query limit structuredLimit).graphCalls →
      l = max 1 limit ∧ 1 ≤ l) ∧
    (∀ ids l, GraphCall.relsQuery ids l ∈ (retrieve cfg oracle
        embedResponse store tGet tSet cache query limit
        structuredLimit).graphCalls →
      l = max 0 structuredLimit ∧ 0 ≤ l) := by
  by_cases hq : pyLen (pyStrip query) = 0
  · rw [show retrieve cfg oracle embedResponse store tGet tSet cache query
        limit structuredLimit = ⟨.error .emptyQuery, cache, [], []⟩ from by
      simp [retrieve, hq]]
    simp
  · cases hg : (getCachedResult cfg.cacheMaxEntries cfg.cacheTtlSeconds
        tGet cache (pyStrip query)).1 with
    | some hit =>
        have hret : retrieve cfg oracle embedResponse store tGet tSet cache
            query limit structuredLimit
            = ⟨.ok hit, (getCachedResult cfg.cacheMaxEntries
                cfg.cacheTtlSeconds tGet cache (pyStrip query)).2, [], []⟩ := by
          unfold retrieve
          simp only [hq, ite_false, if_false]
          have hpair : getCachedResult cfg.cacheMaxEntries
              cfg.cacheTtlSeconds tGet cache (pyStrip query)
              = (some hit, (getCachedResult cfg.cacheMaxEntries
                  cfg.cacheTtlSeconds tGet cache (pyStrip query)).2) := by
            rw [← hg]
          rw [hpair]
        rw [hret]
        simp
    | none =>
        rw [retrieve_eq_retrieveMiss cfg oracle embedResponse store tGet
          tSet cache query limit structuredLimit hq hg]
        obtain ⟨hvec, hrels⟩ := retrieveMiss_limits cfg oracle embedResponse
          store tSet (getCachedResult cfg.cacheMaxEntries
            cfg.cacheTtlSeconds tGet cache (pyStrip query)).2
          (pyStrip query) limit structuredLimit
        refine ⟨fun n l hmem => ⟨hvec n l hmem, ?_⟩,
          fun ids l hmem => ⟨hrels ids l hmem, ?_⟩⟩
        · rw [hvec n l hmem]
          exact le_max_left 1 limit
        · rw [hrels ids l hmem]
          exact le_max_left 0 structuredLimit

/-- C3 counterexample: with `structured_limit = 0` the relationship query
runs with `$limit = 0`, so "a ceiling of at least 1" fails as stated. -/
theorem rels_query_zero_limit :
    (retrieve fixtureCfg fixtureOracle (.ok [[1]]) fixtureStore 0 0 [] "q"
        5 0).graphCalls
      = [.vectorQuery "chunks" 5, .nodesQuery ["e1"], .relsQuery ["e1"] 0] ∧
    ¬ (1 ≤ (0 : Int)) :=
  ⟨rfl, by decide⟩

/-- C3 witness for the amended clamps, at the fixture miss. -/
theorem retrieve_limit_clamps_witness :
    ((GraphCall.vectorQuery "chunks" 5 ∈ (retrieve fixtureCfg fixtureOracle
        (.ok [[1]]) fixtureStore 0 0 [] "q" 5 0).graphCalls) ∧
      (5 : Int) = max 1 5 ∧ (1 : Int) ≤ 5) ∧
    ((GraphCall.relsQuery ["e1"] 0 ∈ (retrieve fixtureCfg fixtureOracle
        (.ok [[1]]) fixtureStore 0 0 [] "q" 5 0).graphCalls) ∧
      (0 : Int) = max 0 0 ∧ (0 : Int) ≤ 0) :=
  ⟨⟨by decide,
      (retrieve_limit_clamps fixtureCfg fixtureOracle (.ok [[1]])
        fixtureStore 0 0 [] "q" 5 0).1 "chunks" 5 (by decide)⟩,
    ⟨by decide,
      (retrieve_limit_clamps fixtureCfg fixtureOracle (.ok [[1]])
        fixtureStore 0 0 [] "q" 5 0).2 ["e1"] 0 (by decide)⟩⟩

end GraphRAG
